import Mathlib

/-!
Verification of the MCTS move-selection engine of the Gomoku repository
(`src/ai.py`) against its natural-language specification.

Embedding conventions:
* `game.py` (the game rules engine) is an external collaborator of the
  repository (spec section 1/6); it is modelled by the `Oracle` record whose
  fields mirror the GameOracle contract of spec section 6.  Boards and actions
  are opaque values in the spec; they are embedded as natural numbers so that
  everything stays decidable.
* Python float values carried by the search (`num_wins`, rewards, UCB scores,
  `math.inf`) are embedded as `XR`, extended rationals with two infinities.
  The only transcendental part of the code, the exploration bonus
  `sqrt(2*log(parent_visits)/child_visits)`, is abstracted as a per-child
  `bonus` parameter of `best_child`; every claim about `best_child` is stated
  for arbitrary bonuses, which covers the concrete square-root values.
* Mutation is embedded by explicit state passing: `best_child` returns the
  updated node and updated parent, `backpropagate` acts on the list of nodes
  from the start node up to the root (element `i + 1` is the parent of
  element `i`), and Python exceptions (`ValueError` from `log(0)`,
  `ZeroDivisionError`, `IndexError`, `KeyError`, `AttributeError`) are
  embedded as `Except String` errors.
-/

namespace Gomoku

/-- The two players, `BLACK` and `WHITE` of `game.py`. -/
inductive Player where
  | black
  | white
deriving DecidableEq

/-- The opponent of a player; `BLACK if x == WHITE else WHITE` (ai.py line 156). -/
def Player.opponent : Player → Player
  | .black => .white
  | .white => .black

/-- Opaque stand-in for the board snapshot `state[1]` (the grid). -/
abbrev Board := Nat

/-- Opaque stand-in for an action (a cell coordinate in the source). -/
abbrev Action := Nat

/-- A game state `(player-to-move, board)`, as stored in `Node.state`. -/
abbrev GState := Player × Board

/-- Extended rationals: the Python float values that occur in the search
(`num_wins`, rewards, UCB scores), including `math.inf` and `-math.inf`. -/
inductive XR where
  | minf
  | fin (q : ℚ)
  | pinf
deriving DecidableEq

/-- Float addition on the values reachable in the search.  `inf + (-inf)`
would be NaN in Python; it is unreachable here (rewards are finite), and is
given the junk value `0`. -/
def XR.add : XR → XR → XR
  | .fin a, .fin b => .fin (a + b)
  | .pinf, .pinf => .pinf
  | .pinf, .fin _ => .pinf
  | .fin _, .pinf => .pinf
  | .minf, .minf => .minf
  | .minf, .fin _ => .minf
  | .fin _, .minf => .minf
  | .pinf, .minf => .fin 0
  | .minf, .pinf => .fin 0

/-- Float multiplication with the usual sign rules.  `0 * inf` would be NaN in
Python; it is unreachable here (the exploration bonus is always finite), and
is given the junk value `0`. -/
def XR.mul : XR → XR → XR
  | .fin a, .fin b => .fin (a * b)
  | .pinf, .pinf => .pinf
  | .minf, .minf => .pinf
  | .pinf, .minf => .minf
  | .minf, .pinf => .minf
  | .pinf, .fin b => if b < 0 then .minf else if b = 0 then .fin 0 else .pinf
  | .fin a, .pinf => if a < 0 then .minf else if a = 0 then .fin 0 else .pinf
  | .minf, .fin b => if b < 0 then .pinf else if b = 0 then .fin 0 else .minf
  | .fin a, .minf => if a < 0 then .pinf else if a = 0 then .fin 0 else .minf

/-- Division of a float by a visit count, `child.num_wins / child.num_visits`.
Division by zero raises `ZeroDivisionError` in Python; callers guard it, so
the `n = 0` case here is junk (rational division by zero). -/
def XR.divNat : XR → Nat → XR
  | .fin a, n => .fin (a / n)
  | .pinf, _ => .pinf
  | .minf, _ => .minf

/-- Strict comparison `a < b` on float values, as used by
`ucb_value > best_ucb_value` (ai.py line 143). -/
def XR.blt : XR → XR → Bool
  | .minf, .minf => false
  | .minf, .fin _ => true
  | .minf, .pinf => true
  | .fin _, .minf => false
  | .fin a, .fin b => decide (a < b)
  | .fin _, .pinf => true
  | .pinf, _ => false

theorem XR.blt_irrefl (a : XR) : XR.blt a a = false := by
  cases a <;> simp [XR.blt]

theorem XR.blt_trans {a b c : XR} (h1 : XR.blt a b = true) (h2 : XR.blt b c = true) :
    XR.blt a c = true := by
  cases a <;> cases b <;> cases c <;> simp_all [XR.blt]
  linarith

theorem XR.ble_trans {a b c : XR} (h1 : XR.blt b a = false) (h2 : XR.blt c b = false) :
    XR.blt c a = false := by
  cases a <;> cases b <;> cases c <;> simp_all [XR.blt]
  linarith

@[simp] theorem XR.pinf_add_fin (x : ℚ) : XR.add .pinf (.fin x) = .pinf := rfl

@[simp] theorem XR.minf_add_fin (x : ℚ) : XR.add .minf (.fin x) = .minf := rfl

@[simp] theorem XR.add_fin_zero (x : XR) : XR.add x (.fin 0) = x := by
  cases x <;> simp [XR.add]

@[simp] theorem XR.fin_zero_mul (y : XR) : XR.mul (.fin 0) y = .fin 0 := by
  cases y <;> simp [XR.mul]

/-- The GameOracle contract of spec section 6: the narrow interface through
which `ai.py` consumes the external `game.py` rules engine (`Game.game_over`,
`Game.winner`, `Game.get_actions`, `Game.place`, `Game.rand_move`).
`winner` is `none` when the finished game has no winner (a draw);
`rand_move` is a deterministic stand-in for the random sampler, which is
enough because the claims only count how often it is consulted. -/
structure Oracle where
  game_over : GState → Bool
  winner : GState → Option Player
  get_actions : GState → List Action
  place : GState → Action → GState
  rand_move : GState → Action

/-- The search-tree node of ai.py (`class Node`).  The parent pointer of the
Python object is not stored; operations that walk or mutate the parent take
it as an explicit argument (`best_child`) or act on the ancestor path
(`backpropagate`). -/
inductive Node where
  | mk (player : Player) (board : Board) (num_wins : XR) (num_visits : Nat)
      (children : List (Action × Node)) (untried_actions : List Action)
      (term : Bool) (mmterm : Bool) (mmwinner : Option Player)

/-- Field `state[0]`, the player to move at this node. -/
def Node.player : Node → Player
  | .mk p _ _ _ _ _ _ _ _ => p

/-- Field `state[1]`, the board at this node. -/
def Node.board : Node → Board
  | .mk _ b _ _ _ _ _ _ _ => b

/-- Field `num_wins`. -/
def Node.num_wins : Node → XR
  | .mk _ _ w _ _ _ _ _ _ => w

/-- Field `num_visits`. -/
def Node.num_visits : Node → Nat
  | .mk _ _ _ v _ _ _ _ _ => v

/-- Field `children`, the ordered list of `(action, child)` pairs. -/
def Node.children : Node → List (Action × Node)
  | .mk _ _ _ _ ch _ _ _ _ => ch

/-- Field `untried_actions`. -/
def Node.untried_actions : Node → List Action
  | .mk _ _ _ _ _ ua _ _ _ => ua

/-- Field `is_terminal`. -/
def Node.is_terminal : Node → Bool
  | .mk _ _ _ _ _ _ t _ _ => t

/-- Field `is_minimax_terminal`. -/
def Node.is_minimax_terminal : Node → Bool
  | .mk _ _ _ _ _ _ _ m _ => m

/-- Field `minimax_winner`. -/
def Node.minimax_winner : Node → Option Player
  | .mk _ _ _ _ _ _ _ _ w => w

/-- Assignment `node.num_wins = x`. -/
def Node.setWins (x : XR) : Node → Node
  | .mk p b _ v ch ua t m w => .mk p b x v ch ua t m w

/-- The pair of assignments `node.is_minimax_terminal = True;
node.minimax_winner = w`. -/
def Node.setSolved (w : Option Player) : Node → Node
  | .mk p b wi v ch ua t _ _ => .mk p b wi v ch ua t true w

/-- Statement `node.num_visits += 1`. -/
def Node.incVisits : Node → Node
  | .mk p b w v ch ua t m mw => .mk p b w (v + 1) ch ua t m mw

/-- Statement `node.num_wins += r`. -/
def Node.addWins (r : XR) : Node → Node
  | .mk p b w v ch ua t m mw => .mk p b (w.add r) v ch ua t m mw

/-- Assignment `node.untried_actions = l` (the effect of `pop(0)` on the queue). -/
def Node.setUntried (l : List Action) : Node → Node
  | .mk p b w v ch _ t m mw => .mk p b w v ch l t m mw

/-- Statement `node.children.append(ac)` (ai.py line 121). -/
def Node.addChild (ac : Action × Node) : Node → Node
  | .mk p b w v ch ua t m mw => .mk p b w v (ch ++ [ac]) ua t m mw

@[simp] theorem Node.player_setWins (x : XR) (n : Node) : (n.setWins x).player = n.player := by
  cases n; rfl

@[simp] theorem Node.num_wins_setWins (x : XR) (n : Node) : (n.setWins x).num_wins = x := by
  cases n; rfl

@[simp] theorem Node.num_visits_setWins (x : XR) (n : Node) :
    (n.setWins x).num_visits = n.num_visits := by
  cases n; rfl

@[simp] theorem Node.player_setSolved (w : Option Player) (n : Node) :
    (n.setSolved w).player = n.player := by
  cases n; rfl

@[simp] theorem Node.num_wins_setSolved (w : Option Player) (n : Node) :
    (n.setSolved w).num_wins = n.num_wins := by
  cases n; rfl

@[simp] theorem Node.num_visits_setSolved (w : Option Player) (n : Node) :
    (n.setSolved w).num_visits = n.num_visits := by
  cases n; rfl

@[simp] theorem Node.mmterm_setSolved (w : Option Player) (n : Node) :
    (n.setSolved w).is_minimax_terminal = true := by
  cases n; rfl

@[simp] theorem Node.mmwinner_setSolved (w : Option Player) (n : Node) :
    (n.setSolved w).minimax_winner = w := by
  cases n; rfl

@[simp] theorem Node.mmterm_setWins (x : XR) (n : Node) :
    (n.setWins x).is_minimax_terminal = n.is_minimax_terminal := by
  cases n; rfl

@[simp] theorem Node.mmwinner_setWins (x : XR) (n : Node) :
    (n.setWins x).minimax_winner = n.minimax_winner := by
  cases n; rfl

@[simp] theorem Node.player_incVisits (n : Node) : n.incVisits.player = n.player := by
  cases n; rfl

@[simp] theorem Node.num_wins_incVisits (n : Node) : n.incVisits.num_wins = n.num_wins := by
  cases n; rfl

@[simp] theorem Node.num_visits_incVisits (n : Node) :
    n.incVisits.num_visits = n.num_visits + 1 := by
  cases n; rfl

@[simp] theorem Node.mmterm_incVisits (n : Node) :
    n.incVisits.is_minimax_terminal = n.is_minimax_terminal := by
  cases n; rfl

@[simp] theorem Node.mmwinner_incVisits (n : Node) :
    n.incVisits.minimax_winner = n.minimax_winner := by
  cases n; rfl

@[simp] theorem Node.player_addWins (r : XR) (n : Node) : (n.addWins r).player = n.player := by
  cases n; rfl

@[simp] theorem Node.num_wins_addWins (r : XR) (n : Node) :
    (n.addWins r).num_wins = n.num_wins.add r := by
  cases n; rfl

@[simp] theorem Node.num_visits_addWins (r : XR) (n : Node) :
    (n.addWins r).num_visits = n.num_visits := by
  cases n; rfl

@[simp] theorem Node.mmterm_addWins (r : XR) (n : Node) :
    (n.addWins r).is_minimax_terminal = n.is_minimax_terminal := by
  cases n; rfl

@[simp] theorem Node.mmwinner_addWins (r : XR) (n : Node) :
    (n.addWins r).minimax_winner = n.minimax_winner := by
  cases n; rfl

/-- First-match association-list lookup, modelling Python dict indexing
`d[k]`; `none` models a `KeyError`.  The dicts built by the code never repeat
a key, so first-match agrees with the dict. -/
def dlookup {κ α : Type} [DecidableEq κ] : List (κ × α) → κ → Option α
  | [], _ => none
  | (k, v) :: r, k2 => if k = k2 then some v else dlookup r k2

/-- Constructor `Node.__init__` (ai.py lines 10-22): statistics zeroed, no children,
`untried_actions` a copy of the given action list, `is_terminal` asked from
the oracle, minimax fields cleared. -/
def mkNode (O : Oracle) (st : GState) (actions : List Action) : Node :=
  .mk st.1 st.2 (.fin 0) 0 [] actions (O.game_over st) false none

/-- Constructor `AI.__init__` (ai.py lines 34-48): with a saved root present, scan its
children for one whose board equals the realized board, assigning each match
to `self.root` (so the last match sticks); with no saved root, build a fresh
`Node`.  The result is the value of `self.root` after the constructor:
`none` means the attribute was never assigned (the Python object has no
`root`, and the next attribute access raises `AttributeError`). -/
def AI_init (O : Oracle) (saved_root : Option Node) (st : GState) : Option Node :=
  match saved_root with
  | some saved =>
      saved.children.foldl (fun acc ac => if ac.2.board = st.2 then some ac.2 else acc) none
  | none => some (mkNode O st (O.get_actions st))

/-- Method `AI.expand` (ai.py lines 102-123).  Returns the node as it remains in the
tree together with the node handed to rollout: a terminal or minimax-terminal
node is returned unchanged, otherwise the head of `untried_actions` is popped
(`IndexError` when empty), applied through the oracle, and the new child is
appended to `children`. -/
def expand (O : Oracle) (node : Node) : Except String (Node × Node) :=
  if node.is_terminal || node.is_minimax_terminal then
    .ok (node, node)
  else
    match node.untried_actions with
    | [] => .error "IndexError: pop from empty list"
    | a :: rest =>
        let s2 := O.place (node.player, node.board) a
        let child := mkNode O s2 (O.get_actions s2)
        .ok ((node.setUntried rest).addChild (a, child), child)

/-- The random playout loop of `AI.rollout` (ai.py lines 214-215):
`while not game_over: place(rand_move())`.  Returns the final state and the
number of calls to the random-move sampler; `none` when the supplied fuel is
exhausted before the oracle reports the game over. -/
def simLoop (O : Oracle) (fuel : Nat) (s : GState) : Option (GState × Nat) :=
  match fuel with
  | 0 => if O.game_over s then some (s, 0) else none
  | f + 1 =>
      if O.game_over s then some (s, 0)
      else (simLoop O f (O.place s (O.rand_move s))).map (fun r => (r.1, r.2 + 1))

/-- The reward dictionary built at the end of `AI.rollout`
(ai.py lines 218-225): `{BLACK: 1, WHITE: 0}` when BLACK won,
`{BLACK: 0, WHITE: 1}` when WHITE won, and the empty dict `{}` when the
winner is neither (a draw).  The minimax branch (lines 203-210) builds its
dictionary from `minimax_winner` by the same cases. -/
def rewardFor (w : Option Player) : List (Player × XR) :=
  match w with
  | some .black => [(.black, .fin 1), (.white, .fin 0)]
  | some .white => [(.black, .fin 0), (.white, .fin 1)]
  | none => []

/-- Method `AI.rollout` (ai.py lines 193-225).  A minimax-terminal node produces the
synthesized reward with no simulation; otherwise the playout loop runs and the
reward is read off the oracle winner of the final state.  The second
component counts the calls to the random-move sampler. -/
def rollout (O : Oracle) (fuel : Nat) (node : Node) : Option (List (Player × XR) × Nat) :=
  if node.is_minimax_terminal then
    some (rewardFor node.minimax_winner, 0)
  else
    (simLoop O fuel (node.player, node.board)).map (fun r => (rewardFor (O.winner r.1), r.2))

/-- The UCB score of one child (ai.py line 142):
`child.num_wins / child.num_visits + c * sqrt(2*log(parent_visits)/child.num_visits)`,
with the square-root factor abstracted as `bonus child` (see the file
header). -/
def ucb (c : XR) (bonus : Node → XR) (ch : Node) : XR :=
  (ch.num_wins.divNat ch.num_visits).add (c.mul (bonus ch))

/-- The scan over `node.children` in `AI.best_child` (ai.py lines 133-150):
strictly-greater comparison against the running best (initially `-1`), and,
only when `c == 0`, recording every `(action, score)` pair in the table.
A child with zero visits raises `ZeroDivisionError`. -/
def bcScan (c : XR) (bonus : Node → XR) :
    List (Action × Node) → XR → Option (Action × Node) → List (Action × XR) →
    Except String (XR × Option (Action × Node) × List (Action × XR))
  | [], bv, best, tb => .ok (bv, best, tb)
  | (a, ch) :: rest, bv, best, tb =>
      if ch.num_visits = 0 then .error "ZeroDivisionError: division by zero"
      else
        let u := ucb c bonus ch
        let bv2 := if XR.blt bv u then u else bv
        let best2 := if XR.blt bv u then some (a, ch) else best
        let tb2 := if c = XR.fin 0 then tb ++ [(a, u)] else tb
        bcScan c bonus rest bv2 best2 tb2

/-- What one call of `AI.best_child` leaves behind: the node and its parent
as they stand after the call (the source mutates them on the minimax-closure
path), the returned `(action, child)` pair, and the returned score table. -/
structure BCResult where
  node : Node
  parent : Option Node
  best : Option (Action × Node)
  table : List (Action × XR)

/-- Method `AI.best_child` (ai.py lines 125-168).  `log(node.num_visits)` raises
`ValueError` on zero visits; then the scan runs; if no score ever exceeded
the `-1` floor the minimax closure fires: the node is marked minimax-terminal
with winner the opponent of its mover and `num_wins = inf`, the parent (when
present) gets `num_wins = -inf` and is marked minimax-terminal with winner its
own mover, and `children[0]` is returned with an empty table (`IndexError`
when there are no children).  Otherwise the best pair and the table are
returned unchanged. -/
def best_child (c : XR) (bonus : Node → XR) (node : Node) (parent : Option Node) :
    Except String BCResult :=
  if node.num_visits = 0 then .error "ValueError: math domain error"
  else
    match bcScan c bonus node.children (.fin (-1)) none [] with
    | .error e => .error e
    | .ok (bv, best, tb) =>
        if bv = XR.fin (-1) then
          let node2 := (node.setSolved (some node.player.opponent)).setWins .pinf
          let parent2 := parent.map (fun p => (p.setWins .minf).setSolved (some p.player))
          match node.children with
          | [] => .error "IndexError: list index out of range"
          | h :: _ => .ok ⟨node2, parent2, some h, []⟩
        else .ok ⟨node, parent, best, tb⟩

/-- The upward walk of `AI.backpropagate` (ai.py lines 184-189), acting on the
list of nodes from the start node up to the root (each element followed by its
parent): every node gets `num_visits += 1`, and every node that has a parent
gets `num_wins += result[parent.state[0]]` (`KeyError` when the reward dict
has no entry for that player). -/
def backpropLoop (reward : List (Player × XR)) : List Node → Except String (List Node)
  | [] => .ok []
  | [n] => .ok [n.incVisits]
  | n :: p :: rest =>
      match dlookup reward p.player with
      | none => .error "KeyError: reward has no entry for that player"
      | some r => (backpropLoop reward (p :: rest)).map (fun l => (n.incVisits.addWins r) :: l)

/-- Method `AI.backpropagate` (ai.py lines 170-189) on the path from the start node
up to the root.  A terminal start node first gets `num_wins = inf` and its
parent gets `num_wins = -inf` plus the minimax-terminal marking with winner
the parent mover; dereferencing the parent of a parentless terminal node
raises `AttributeError`.  Then the upward walk runs. -/
def backpropagate (reward : List (Player × XR)) (path : List Node) :
    Except String (List Node) :=
  match path with
  | [] => .ok []
  | n :: rest =>
      if n.is_terminal then
        match rest with
        | [] => .error "AttributeError: NoneType has no attribute num_wins"
        | p :: rest2 =>
            backpropLoop reward (n.setWins .pinf :: ((p.setWins .minf).setSolved (some p.player)) :: rest2)
      else backpropLoop reward (n :: rest)

/-- The return step of `AI.mcts_search` (ai.py lines 75-84): one call of
`best_child(root, 0)` yielding the chosen `(action, child)` pair (the child is
also what gets saved as the next decision cache) and the win-rate table. -/
def mcts_return (bonus : Node → XR) (root : Node) :
    Except String (Option (Action × Node) × List (Action × XR)) :=
  (best_child (.fin 0) bonus root none).map (fun r => (r.best, r.table))

/-- Spec-side description of the ordinary backpropagation walk, written from
the words of the claim (Invariant I1): every node on the walk has its visits
incremented by exactly one, every node that has a parent has its wins
incremented by the reward of the parent mover, and the root (the last node,
which has no parent) keeps its wins. -/
def backpropSpecWalk (rw : Player → XR) : List Node → List Node
  | [] => []
  | [n] => [n.incVisits]
  | n :: p :: rest => (n.incVisits.addWins (rw p.player)) :: backpropSpecWalk rw (p :: rest)

theorem ucb_zero (bonus : Node → XR) (ch : Node) :
    ucb (.fin 0) bonus ch = ch.num_wins.divNat ch.num_visits := by
  simp [ucb]

theorem bcScan_noUpdate (c : XR) (bonus : Node → XR) :
    ∀ (l : List (Action × Node)) (bv : XR) (best : Option (Action × Node))
      (tb : List (Action × XR)),
    (∀ q ∈ l, q.2.num_visits ≠ 0 ∧ XR.blt bv (ucb c bonus q.2) = false) →
    ∃ tb2, bcScan c bonus l bv best tb = .ok (bv, best, tb2) := by
  intro l
  induction l with
  | nil => intro bv best tb _; exact ⟨tb, rfl⟩
  | cons q rest ih =>
    intro bv best tb h
    obtain ⟨a, ch⟩ := q
    have h1 := h (a, ch) (List.mem_cons_self _ _)
    have h2 : ∀ p ∈ rest, p.2.num_visits ≠ 0 ∧ XR.blt bv (ucb c bonus p.2) = false :=
      fun p hp => h p (List.mem_cons_of_mem _ hp)
    obtain ⟨tb2, htb⟩ :=
      ih bv best (if c = XR.fin 0 then tb ++ [(a, ucb c bonus ch)] else tb) h2
    exact ⟨tb2, by simpa [bcScan, h1.1, h1.2] using htb⟩

theorem bcScan_table (bonus : Node → XR) :
    ∀ (l : List (Action × Node)) (bv : XR) (best : Option (Action × Node))
      (tb : List (Action × XR)),
    (∀ q ∈ l, q.2.num_visits ≠ 0) →
    ∃ bv2 best2, bcScan (.fin 0) bonus l bv best tb =
      .ok (bv2, best2, tb ++ l.map (fun q => (q.1, ucb (.fin 0) bonus q.2))) := by
  intro l
  induction l with
  | nil => intro bv best tb _; exact ⟨bv, best, by simp [bcScan]⟩
  | cons q rest ih =>
    intro bv best tb h
    obtain ⟨a, ch⟩ := q
    have h1 := h (a, ch) (List.mem_cons_self _ _)
    have h2 : ∀ p ∈ rest, p.2.num_visits ≠ 0 := fun p hp => h p (List.mem_cons_of_mem _ hp)
    cases hb : XR.blt bv (ucb (.fin 0) bonus ch) with
    | true =>
      obtain ⟨bv2, best2, htb⟩ :=
        ih (ucb (.fin 0) bonus ch) (some (a, ch)) (tb ++ [(a, ucb (.fin 0) bonus ch)]) h2
      exact ⟨bv2, best2, by simpa [bcScan, h1, hb] using htb⟩
    | false =>
      obtain ⟨bv2, best2, htb⟩ := ih bv best (tb ++ [(a, ucb (.fin 0) bonus ch)]) h2
      exact ⟨bv2, best2, by simpa [bcScan, h1, hb] using htb⟩

theorem bcScan_not_lt (c : XR) (bonus : Node → XR) :
    ∀ (l : List (Action × Node)) (bv : XR) (best : Option (Action × Node))
      (tb : List (Action × XR)) (out : XR × Option (Action × Node) × List (Action × XR)),
    bcScan c bonus l bv best tb = .ok out →
    (∀ q ∈ l, XR.blt out.1 (ucb c bonus q.2) = false) ∧ XR.blt out.1 bv = false := by
  intro l
  induction l with
  | nil =>
    intro bv best tb out h
    simp only [bcScan, Except.ok.injEq] at h
    refine ⟨fun q hq => absurd hq (List.not_mem_nil q), ?_⟩
    rw [← h]
    exact XR.blt_irrefl bv
  | cons q rest ih =>
    intro bv best tb out h
    obtain ⟨a, ch⟩ := q
    by_cases hv : ch.num_visits = 0
    · simp [bcScan, hv] at h
    · cases hb : XR.blt bv (ucb c bonus ch) with
      | true =>
        have h3 : bcScan c bonus rest (ucb c bonus ch) (some (a, ch))
            (if c = XR.fin 0 then tb ++ [(a, ucb c bonus ch)] else tb) = .ok out := by
          simpa [bcScan, hv, hb] using h
        obtain ⟨hrest, hle⟩ := ih _ _ _ out h3
        have hhd : XR.blt out.1 (ucb c bonus ch) = false := hle
        refine ⟨?_, ?_⟩
        · intro p hp
          rcases List.mem_cons.mp hp with he | ht
          · rw [he]; exact hhd
          · exact hrest p ht
        · cases hc : XR.blt out.1 bv with
          | false => rfl
          | true => exact absurd (XR.blt_trans hc hb) (by simp [hle])
      | false =>
        have h3 : bcScan c bonus rest bv best
            (if c = XR.fin 0 then tb ++ [(a, ucb c bonus ch)] else tb) = .ok out := by
          simpa [bcScan, hv, hb] using h
        obtain ⟨hrest, hle⟩ := ih _ _ _ out h3
        refine ⟨?_, hle⟩
        intro p hp
        rcases List.mem_cons.mp hp with he | ht
        · rw [he]; exact XR.ble_trans hb hle
        · exact hrest p ht

theorem backpropLoop_spec (reward : List (Player × XR)) (rw : Player → XR)
    (hlk : ∀ q : Player, dlookup reward q = some (rw q)) :
    ∀ l : List Node, backpropLoop reward l = .ok (backpropSpecWalk rw l) := by
  intro l
  induction l with
  | nil => rfl
  | cons n rest ih =>
    cases rest with
    | nil => rfl
    | cons p r2 =>
      simp [backpropLoop, backpropSpecWalk, hlk p.player, ih, Except.map]

theorem dlookup_map_of_nodup (f : Action × Node → XR) :
    ∀ (l : List (Action × Node)), (l.map Prod.fst).Nodup →
    ∀ q ∈ l, dlookup (l.map (fun p => (p.1, f p))) q.1 = some (f q) := by
  intro l
  induction l with
  | nil => intro _ q hq; exact absurd hq (List.not_mem_nil q)
  | cons hd tl ih =>
    intro hnd q hq
    rw [List.map_cons, List.nodup_cons] at hnd
    rcases List.mem_cons.mp hq with he | ht
    · rw [he]; simp [dlookup]
    · have hne : hd.1 ≠ q.1 := by
        intro he2
        exact hnd.1 (he2 ▸ List.mem_map_of_mem Prod.fst ht)
      simp only [List.map_cons, dlookup, if_neg hne]
      exact ih hnd.2 q ht

/-- A small concrete oracle used by closed evaluations: the game is over
exactly on board `99`, where BLACK is the winner. -/
def O0 : Oracle where
  game_over := fun s => decide (s.2 = 99)
  winner := fun s => if s.2 = 99 then some .black else none
  get_actions := fun _ => [1, 2]
  place := fun s a => (s.1.opponent, s.2 + a)
  rand_move := fun _ => 1

/-- A concrete oracle whose games are over immediately with no winner (a
drawn final position). -/
def Odraw : Oracle where
  game_over := fun _ => true
  winner := fun _ => none
  get_actions := fun _ => []
  place := fun s _ => s
  rand_move := fun _ => 0

/-- C1: cross-decision cache resolution, evaluated on concrete inputs.  First
conjunct: when a child of the saved subtree has a board equal to the realized
board, that very child (its accumulated `num_wins = 2`, `num_visits = 4`
intact) becomes the new root.  Second conjunct (the failing input): when no
child board matches, `AI.__init__` produces no root at all (`none`, i.e.
`self.root` is left unassigned and the next access raises `AttributeError`)
instead of the fresh statistics-free root the claim describes. -/
theorem C1_cache_resolution :
    AI_init O0 (some (Node.mk .black 7 (.fin 3) 9
        [(1, Node.mk .white 5 (.fin 2) 4 [] [] false false none)] [] false false none))
        (Player.white, 5)
      = some (Node.mk .white 5 (.fin 2) 4 [] [] false false none)
  ∧ AI_init O0 (some (Node.mk .black 7 (.fin 3) 9
        [(1, Node.mk .white 5 (.fin 2) 4 [] [] false false none)] [] false false none))
        (Player.white, 6)
      = none := ⟨rfl, rfl⟩

/-- C3 counterexample: the claim quantifies over every `backpropagate` call,
but for a terminal start node whose parent is the root the terminal branch
rewrites the root's wins to `-inf` (and the node's own wins to `+inf`), so
the root's wins do not stay unchanged: here they move from `0` to `-inf`. -/
theorem C3_counterexample :
    (backpropagate [(Player.black, XR.fin 1), (Player.white, XR.fin 0)]
        [Node.mk .black 0 (.fin 0) 1 [] [] true false none,
         Node.mk .white 0 (.fin 0) 5 [] [] false false none]).toOption.map
      (fun l => l.map Node.num_wins)
      = some [XR.pinf, XR.minf]
  ∧ XR.minf ≠ XR.fin 0 := ⟨rfl, by decide⟩

/-- C3 (amended: restricted to calls whose start node is not terminal):
backpropagation equals the claimed walk — every node on the path from the
start node to the root gets `num_visits + 1`, every node that has a parent
gets `num_wins + reward[parent mover]`, and the root's wins are untouched. -/
theorem C3_backprop_walk (reward : List (Player × XR)) (rw : Player → XR)
    (hlk : ∀ q : Player, dlookup reward q = some (rw q))
    (n : Node) (rest : List Node) (hterm : n.is_terminal = false) :
    backpropagate reward (n :: rest) = .ok (backpropSpecWalk rw (n :: rest)) := by
  simp [backpropagate, hterm, backpropLoop_spec reward rw hlk]

/-- C3 witness: a two-level path root→child with reward `{BLACK:1, WHITE:0}`
and the child to move as BLACK: the child's wins grow by `reward[WHITE] = 0`,
the root's wins stay `2` while its visits go from `5` to `6`. -/
theorem C3_witness :
    backpropagate [(Player.black, XR.fin 1), (Player.white, XR.fin 0)]
        [Node.mk .black 0 (.fin 0) 0 [] [] false false none,
         Node.mk .white 0 (.fin 2) 5 [] [] false false none]
      = .ok (backpropSpecWalk
          (fun q => match q with | .black => XR.fin 1 | .white => XR.fin 0)
          [Node.mk .black 0 (.fin 0) 0 [] [] false false none,
           Node.mk .white 0 (.fin 2) 5 [] [] false false none])
  ∧ (backpropSpecWalk (fun q => match q with | .black => XR.fin 1 | .white => XR.fin 0)
        [Node.mk .black 0 (.fin 0) 0 [] [] false false none,
         Node.mk .white 0 (.fin 2) 5 [] [] false false none]).map Node.num_visits = [1, 6]
  ∧ (backpropSpecWalk (fun q => match q with | .black => XR.fin 1 | .white => XR.fin 0)
        [Node.mk .black 0 (.fin 0) 0 [] [] false false none,
         Node.mk .white 0 (.fin 2) 5 [] [] false false none]).map Node.num_wins
      = [XR.fin 0, XR.fin 2] :=
  ⟨C3_backprop_walk _ _ (fun q => by cases q <;> rfl) _ _ rfl,
   by simp [backpropSpecWalk, Node.num_visits, Node.player, Node.incVisits, Node.addWins],
   by simp [backpropSpecWalk, Node.num_wins, Node.player, Node.incVisits, Node.addWins, XR.add]⟩

/-- C4 counterexample: terminal adoption records the parent's own mover, not
that mover's opponent, as the minimax winner.  Concretely, with the parent to
move as WHITE, the recorded `minimax_winner` is WHITE, while reading the claim
(the parent solved as a certain loss for its own mover) demands BLACK. -/
theorem C4_counterexample :
    (backpropagate [(Player.black, XR.fin 1), (Player.white, XR.fin 0)]
        [Node.mk .black 3 (.fin 0) 1 [] [] true false none,
         Node.mk .white 3 (.fin 1) 7 [] [] false false none]).toOption.bind
      (fun l => l.tail.head?.bind Node.minimax_winner) = some Player.white
  ∧ some Player.white ≠ some (Player.opponent Player.white) := ⟨rfl, by decide⟩

/-- C4 (amended: the parent's recorded minimax winner is the parent's own
mover — a certain win for that mover, i.e. a loss from the grandparent's
perspective, matching `wins = -inf`): for a terminal start node, backpropagate
forces the node's wins to `+inf`, marks the parent minimax-solved with
`minimax_winner` = the parent mover and `num_wins = -inf`, and then runs the
ordinary walk (both nodes get their visit increment). -/
theorem C4_terminal_adoption (reward : List (Player × XR)) (rw : Player → ℚ)
    (hlk : ∀ q : Player, dlookup reward q = some (.fin (rw q)))
    (n p : Node) (rest : List Node) (hterm : n.is_terminal = true) :
    ∃ n2 p2 rest2,
      backpropagate reward (n :: p :: rest) = .ok (n2 :: p2 :: rest2) ∧
      n2.num_wins = .pinf ∧ n2.num_visits = n.num_visits + 1 ∧
      p2.is_minimax_terminal = true ∧ p2.minimax_winner = some p.player ∧
      p2.num_wins = .minf ∧ p2.num_visits = p.num_visits + 1 := by
  have hloop := backpropLoop_spec reward (fun q => XR.fin (rw q)) hlk
  have hb : backpropagate reward (n :: p :: rest)
      = backpropLoop reward
          (n.setWins .pinf :: ((p.setWins .minf).setSolved (some p.player)) :: rest) := by
    simp [backpropagate, hterm]
  rw [hb, hloop]
  cases rest with
  | nil => exact ⟨_, _, _, rfl, by simp [backpropSpecWalk], by simp [backpropSpecWalk],
      by simp [backpropSpecWalk], by simp [backpropSpecWalk], by simp [backpropSpecWalk],
      by simp [backpropSpecWalk]⟩
  | cons q rest3 => exact ⟨_, _, _, rfl, by simp [backpropSpecWalk], by simp [backpropSpecWalk],
      by simp [backpropSpecWalk], by simp [backpropSpecWalk], by simp [backpropSpecWalk],
      by simp [backpropSpecWalk]⟩

/-- C4 witness: concrete terminal BLACK-to-move node under a WHITE-to-move
parent, with reward `{BLACK:1, WHITE:0}`. -/
theorem C4_witness :
    (Node.mk Player.black 0 (XR.fin 1) 2 [] [] true false none).is_terminal = true
  ∧ ∃ n2 p2 rest2,
      backpropagate [(Player.black, XR.fin 1), (Player.white, XR.fin 0)]
          [Node.mk .black 0 (.fin 1) 2 [] [] true false none,
           Node.mk .white 0 (.fin 0) 5 [] [] false false none]
        = .ok (n2 :: p2 :: rest2) ∧
      n2.num_wins = .pinf ∧
      n2.num_visits = (Node.mk Player.black 0 (XR.fin 1) 2 [] [] true false none).num_visits + 1 ∧
      p2.is_minimax_terminal = true ∧
      p2.minimax_winner = some (Node.mk Player.white 0 (XR.fin 0) 5 [] [] false false none).player ∧
      p2.num_wins = .minf ∧
      p2.num_visits = (Node.mk Player.white 0 (XR.fin 0) 5 [] [] false false none).num_visits + 1 :=
  ⟨rfl, C4_terminal_adoption _ (fun q => match q with | .black => 1 | .white => 0)
    (fun q => by cases q <;> rfl) _ _ _ rfl⟩

/-- C9: a terminal search root is not handled.  Selection and expansion hand
the terminal root through unchanged, and `backpropagate` on the parentless
terminal root hits the terminal branch, dereferences the absent parent and
fails (`AttributeError` in the source), so a search started from a finished
game state never completes an iteration. -/
theorem C9_terminal_root_crash (O : Oracle) (node : Node) (reward : List (Player × XR))
    (hterm : node.is_terminal = true) :
    expand O node = .ok (node, node) ∧
    backpropagate reward [node] = .error "AttributeError: NoneType has no attribute num_wins" := by
  constructor
  · simp [expand, hterm]
  · simp [backpropagate, hterm]

/-- C9 witness: a concrete terminal root with no parent. -/
theorem C9_witness :
    (Node.mk Player.black 99 (XR.fin 0) 0 [] [] true false none).is_terminal = true
  ∧ (expand O0 (Node.mk Player.black 99 (XR.fin 0) 0 [] [] true false none)
      = .ok (Node.mk Player.black 99 (XR.fin 0) 0 [] [] true false none,
             Node.mk Player.black 99 (XR.fin 0) 0 [] [] true false none)
    ∧ backpropagate [] [Node.mk Player.black 99 (XR.fin 0) 0 [] [] true false none]
      = .error "AttributeError: NoneType has no attribute num_wins") :=
  ⟨rfl, C9_terminal_root_crash O0 _ [] rfl⟩

/-- C10: drawn outcomes produce an empty reward and break backpropagation.
A rollout whose simulation ends with no winner returns the empty reward dict;
`backpropagate` with an empty reward fails with a `KeyError` on any path
containing a node with a parent; and only a strict winner yields the
documented `{winner: 1, loser: 0}` pair. -/
theorem C10_draw_reward (O : Oracle) (fuel : Nat) (node : Node) (t : GState) (k : Nat)
    (hm : node.is_minimax_terminal = false)
    (hsim : simLoop O fuel (node.player, node.board) = some (t, k))
    (hw : O.winner t = none)
    (n p : Node) (rest : List Node) :
    rollout O fuel node = some ([], k) ∧
    backpropagate [] (n :: p :: rest)
      = .error "KeyError: reward has no entry for that player" ∧
    (∀ w : Player, dlookup (rewardFor (some w)) w = some (XR.fin 1) ∧
      dlookup (rewardFor (some w)) w.opponent = some (XR.fin 0)) := by
  refine ⟨?_, ?_, ?_⟩
  · simp [rollout, hm, hsim, hw, rewardFor]
  · cases ht : n.is_terminal <;> simp [backpropagate, backpropLoop, ht, dlookup]
  · intro w; cases w <;> exact ⟨rfl, rfl⟩

/-- C10 witness: under the drawing oracle, a rollout ends immediately with no
winner and the empty reward dict, and backpropagating it along a two-node
path fails with the `KeyError`. -/
theorem C10_witness :
    rollout Odraw 5 (Node.mk Player.black 0 (XR.fin 0) 0 [] [] false false none) = some ([], 0)
  ∧ backpropagate []
      [Node.mk Player.black 0 (XR.fin 0) 0 [] [] false false none,
       Node.mk Player.white 0 (XR.fin 0) 1 [] [] false false none]
      = .error "KeyError: reward has no entry for that player" :=
  ⟨(C10_draw_reward Odraw 5 (Node.mk Player.black 0 (XR.fin 0) 0 [] [] false false none)
      (Player.black, 0) 0 rfl rfl rfl
      (Node.mk Player.black 0 (XR.fin 0) 0 [] [] false false none)
      (Node.mk Player.white 0 (XR.fin 0) 1 [] [] false false none) []).1,
   (C10_draw_reward Odraw 5 (Node.mk Player.black 0 (XR.fin 0) 0 [] [] false false none)
      (Player.black, 0) 0 rfl rfl rfl
      (Node.mk Player.black 0 (XR.fin 0) 0 [] [] false false none)
      (Node.mk Player.white 0 (XR.fin 0) 1 [] [] false false none) []).2.1⟩

/-- A node whose single child has `num_wins = -inf` (so its UCB score stays
at or below the `-1` floor), used by the C2 evaluations. -/
def c2node : Node :=
  .mk .black 0 (.fin 0) 1 [(1, .mk .white 0 .minf 1 [] [] false false none)] [] false false none

/-- A WHITE-to-move parent for `c2node`. -/
def c2parent : Node := .mk .white 0 (.fin 0) 3 [] [] false false none

/-- C2 counterexample: when the minimax closure fires, the parent's recorded
`minimax_winner` is the parent's own mover (here WHITE), not the opponent of
the parent's mover that reading the claim (the parent solved as a certain
loss for its own mover) demands. -/
theorem C2_counterexample :
    ((best_child (XR.fin 1) (fun _ => XR.fin 0) c2node (some c2parent)).toOption.bind
      (fun r => r.parent.bind Node.minimax_winner)) = some Player.white
  ∧ some Player.white ≠ some (Player.opponent Player.white) := ⟨rfl, by decide⟩

/-- C2 (amended: the parent's recorded winner is the parent's own mover —
a certain win for that mover, i.e. a loss from the grandparent's perspective,
matching `wins = -inf`): when no child score exceeds the `-1` floor, one
`best_child` call marks the node minimax-terminal with winner the opponent of
the node's mover and `wins = +inf`, and simultaneously marks the parent
minimax-terminal with winner the parent's own mover and `wins = -inf`. -/
theorem C2_minimax_closure (c : XR) (bonus : Node → XR) (node p : Node)
    (hv : node.num_visits ≠ 0) (hne : node.children ≠ [])
    (hch : ∀ q ∈ node.children, q.2.num_visits ≠ 0 ∧
      XR.blt (XR.fin (-1)) (ucb c bonus q.2) = false) :
    ∃ r, best_child c bonus node (some p) = .ok r ∧
      r.node.is_minimax_terminal = true ∧
      r.node.minimax_winner = some node.player.opponent ∧
      r.node.num_wins = .pinf ∧
      ∃ q2, r.parent = some q2 ∧ q2.is_minimax_terminal = true ∧
        q2.minimax_winner = some p.player ∧ q2.num_wins = .minf := by
  obtain ⟨tb2, hscan⟩ := bcScan_noUpdate c bonus node.children (.fin (-1)) none [] hch
  cases hc : node.children with
  | nil => exact absurd hc hne
  | cons h rest =>
    rw [hc] at hscan
    have hbc : best_child c bonus node (some p)
        = .ok ⟨(node.setSolved (some node.player.opponent)).setWins .pinf,
               some ((p.setWins .minf).setSolved (some p.player)), some h, []⟩ := by
      simp [best_child, hv, hc, hscan]
    exact ⟨_, hbc, by simp, by simp, by simp, ⟨_, rfl, by simp, by simp, by simp⟩⟩

/-- C2 witness: the concrete closure instance, with the conclusion read back
from the amended theorem. -/
theorem C2_witness :
    c2node.num_visits ≠ 0 ∧ c2node.children.length = 1 ∧
    (∀ q ∈ c2node.children, q.2.num_visits ≠ 0 ∧
      XR.blt (XR.fin (-1)) (ucb (XR.fin 1) (fun _ => XR.fin 0) q.2) = false) ∧
    (∃ r, best_child (XR.fin 1) (fun _ => XR.fin 0) c2node (some c2parent) = .ok r ∧
      r.node.is_minimax_terminal = true ∧
      r.node.minimax_winner = some c2node.player.opponent ∧
      r.node.num_wins = .pinf ∧
      ∃ q2, r.parent = some q2 ∧ q2.is_minimax_terminal = true ∧
        q2.minimax_winner = some c2parent.player ∧ q2.num_wins = .minf) :=
  ⟨by decide, by decide, by decide,
   C2_minimax_closure (XR.fin 1) (fun _ => XR.fin 0) c2node c2parent (by decide)
     (by simp [c2node, Node.children]) (by decide)⟩

/-- C5: terminal and minimax-solved nodes are pruned leaves.  A terminal node
passes through `expand` untouched (no action popped, no child appended); its
rollout consults the random sampler zero times and returns exactly the reward
of the recorded winner of its state; and a minimax-solved node's rollout
performs no simulation and returns the reward giving `1` to the recorded
minimax winner and `0` to the other player. -/
theorem C5_pruned_leaves (O : Oracle) (fuel : Nat) (node : Node) (w : Player) :
    (node.is_terminal = true → expand O node = .ok (node, node)) ∧
    (node.is_terminal = true → node.is_minimax_terminal = false →
      O.game_over (node.player, node.board) = true →
      rollout O fuel node = some (rewardFor (O.winner (node.player, node.board)), 0)) ∧
    (node.is_minimax_terminal = true → node.minimax_winner = some w →
      rollout O fuel node = some (rewardFor (some w), 0) ∧
      dlookup (rewardFor (some w)) w = some (XR.fin 1) ∧
      dlookup (rewardFor (some w)) w.opponent = some (XR.fin 0)) := by
  refine ⟨?_, ?_, ?_⟩
  · intro ht; simp [expand, ht]
  · intro ht hm hov
    have hsim : simLoop O fuel (node.player, node.board)
        = some ((node.player, node.board), 0) := by
      cases fuel <;> simp [simLoop, hov]
    simp [rollout, hm, hsim]
  · intro hm hw
    refine ⟨by simp [rollout, hm, hw], ?_, ?_⟩
    · cases w <;> simp [hw, rewardFor, dlookup]
    · cases w <;> simp [hw, rewardFor, dlookup, Player.opponent]

/-- C5 witness: under `O0`, a terminal node on board 99 (winner BLACK) and a
minimax-solved node with recorded winner WHITE. -/
theorem C5_witness :
    (Node.mk Player.white 99 (XR.fin 0) 0 [] [] true false none).is_terminal = true
  ∧ expand O0 (Node.mk Player.white 99 (XR.fin 0) 0 [] [] true false none)
      = .ok (Node.mk Player.white 99 (XR.fin 0) 0 [] [] true false none,
             Node.mk Player.white 99 (XR.fin 0) 0 [] [] true false none)
  ∧ rollout O0 5 (Node.mk Player.white 99 (XR.fin 0) 0 [] [] true false none)
      = some ([(Player.black, XR.fin 1), (Player.white, XR.fin 0)], 0)
  ∧ rollout O0 5 (Node.mk Player.black 0 (XR.fin 0) 0 [] [] false true (some Player.white))
      = some ([(Player.black, XR.fin 0), (Player.white, XR.fin 1)], 0) :=
  ⟨rfl,
   (C5_pruned_leaves O0 5 (Node.mk Player.white 99 (XR.fin 0) 0 [] [] true false none)
      Player.black).1 rfl,
   (C5_pruned_leaves O0 5 (Node.mk Player.white 99 (XR.fin 0) 0 [] [] true false none)
      Player.black).2.1 rfl rfl rfl,
   ((C5_pruned_leaves O0 5 (Node.mk Player.black 0 (XR.fin 0) 0 [] [] false true
      (some Player.white)) Player.white).2.2 rfl rfl).1⟩

/-- C6: UCB tie-break determinism.  For every score assignment (covering every
exploration constant) under which all children of a node carry the identical
score, `best_child` returns the first child in insertion order: on the normal
path the strictly-greater comparison never replaces the first maximiser, and
on the closure path `children[0]` is returned. -/
theorem C6_tiebreak (c : XR) (bonus : Node → XR) (node : Node) (parent : Option Node)
    (a0 : Action) (c0 : Node) (rest : List (Action × Node))
    (hc : node.children = (a0, c0) :: rest)
    (hv : node.num_visits ≠ 0)
    (hch : ∀ q ∈ node.children, q.2.num_visits ≠ 0)
    (s : XR) (hs : ∀ q ∈ node.children, ucb c bonus q.2 = s) :
    ∃ r, best_child c bonus node parent = .ok r ∧ r.best = some (a0, c0) := by
  have hmem0 : (a0, c0) ∈ node.children := by rw [hc]; exact List.mem_cons_self _ _
  have h0v : c0.num_visits ≠ 0 := hch (a0, c0) hmem0
  have hu : ucb c bonus c0 = s := hs (a0, c0) hmem0
  cases hlt : XR.blt (XR.fin (-1)) s with
  | false =>
    have hall : ∀ q ∈ node.children, q.2.num_visits ≠ 0 ∧
        XR.blt (XR.fin (-1)) (ucb c bonus q.2) = false :=
      fun q hq => ⟨hch q hq, by rw [hs q hq]; exact hlt⟩
    obtain ⟨tb2, hscan⟩ := bcScan_noUpdate c bonus node.children (.fin (-1)) none [] hall
    rw [hc] at hscan
    exact ⟨⟨(node.setSolved (some node.player.opponent)).setWins .pinf,
      parent.map (fun p => (p.setWins .minf).setSolved (some p.player)), some (a0, c0), []⟩,
      by simp [best_child, hv, hc, hscan], rfl⟩
  | true =>
    have hrest : ∀ q ∈ rest, q.2.num_visits ≠ 0 ∧ XR.blt s (ucb c bonus q.2) = false :=
      fun q hq => ⟨hch q (by rw [hc]; exact List.mem_cons_of_mem _ hq),
        by rw [hs q (by rw [hc]; exact List.mem_cons_of_mem _ hq)]; exact XR.blt_irrefl s⟩
    obtain ⟨tb2, hscan⟩ := bcScan_noUpdate c bonus rest s (some (a0, c0))
      (if c = XR.fin 0 then [] ++ [(a0, ucb c bonus c0)] else []) hrest
    have hfull : bcScan c bonus ((a0, c0) :: rest) (.fin (-1)) none []
        = .ok (s, some (a0, c0), tb2) := by
      simpa [bcScan, h0v, hu, hlt] using hscan
    have hsne : s ≠ XR.fin (-1) := by
      intro he
      rw [he] at hlt
      rw [XR.blt_irrefl] at hlt
      cases hlt
    exact ⟨⟨node, parent, some (a0, c0), tb2⟩, by simp [best_child, hv, hc, hfull, hsne], rfl⟩

/-- C6 witness: two children with the identical score `1/2 + 0 = 1/2`; the
first one, `(5, …)`, is returned. -/
theorem C6_witness :
    (Node.mk Player.black 0 (XR.fin 0) 4
        [(5, Node.mk Player.white 0 (XR.fin 1) 2 [] [] false false none),
         (7, Node.mk Player.white 1 (XR.fin 1) 2 [] [] false false none)]
        [] false false none).num_visits ≠ 0
  ∧ (∀ q ∈ (Node.mk Player.black 0 (XR.fin 0) 4
        [(5, Node.mk Player.white 0 (XR.fin 1) 2 [] [] false false none),
         (7, Node.mk Player.white 1 (XR.fin 1) 2 [] [] false false none)]
        [] false false none).children,
      ucb (XR.fin 1) (fun _ => XR.fin 0) q.2 = XR.fin (1 / 2))
  ∧ ∃ r, best_child (XR.fin 1) (fun _ => XR.fin 0)
        (Node.mk Player.black 0 (XR.fin 0) 4
          [(5, Node.mk Player.white 0 (XR.fin 1) 2 [] [] false false none),
           (7, Node.mk Player.white 1 (XR.fin 1) 2 [] [] false false none)]
          [] false false none) none = .ok r ∧
      r.best = some (5, Node.mk Player.white 0 (XR.fin 1) 2 [] [] false false none) :=
  ⟨by decide,
   by
    intro q hq
    simp [Node.children, List.mem_cons] at hq
    rcases hq with hq | hq <;>
      simp [hq, ucb, Node.num_wins, Node.num_visits, XR.divNat, XR.mul, XR.add],
   C6_tiebreak (XR.fin 1) (fun _ => XR.fin 0) _ none 5
     (Node.mk Player.white 0 (XR.fin 1) 2 [] [] false false none)
     [(7, Node.mk Player.white 1 (XR.fin 1) 2 [] [] false false none)]
     rfl (by decide) (by decide) (XR.fin (1 / 2))
     (by
      intro q hq
      simp [Node.children, List.mem_cons] at hq
      rcases hq with hq | hq <;>
        simp [hq, ucb, Node.num_wins, Node.num_visits, XR.divNat, XR.mul, XR.add])⟩

/-- A root whose single child has `num_wins = -inf`, so the final
`best_child(root, 0)` takes the closure path, used by the C7 counterexample. -/
def c7node : Node :=
  .mk .black 0 (.fin 0) 1 [(4, .mk .white 0 .minf 1 [] [] false false none)] [] false false none

/-- C7 counterexample: action `4` is tried at the root (it is a root child),
yet the diagnostics table returned by `best_child(root, 0)` on the closure
path is empty — the claimed entry for every tried action is missing. -/
theorem C7_counterexample :
    ((best_child (XR.fin 0) (fun _ => XR.fin 0) c7node none).toOption.bind
      (fun r => dlookup r.table 4)) = none
  ∧ c7node.children.map Prod.fst = [4] := ⟨rfl, rfl⟩

/-- C7 (amended: provided at least one root child's score exceeds the `-1`
sentinel floor — otherwise the minimax-closure path returns an empty table):
the diagnostics table returned with exploration constant `0` holds an entry
for every action tried at the root, mapped to the plain win rate
`wins / visits` of that child. -/
theorem C7_diagnostics (bonus : Node → XR) (node : Node) (parent : Option Node)
    (hv : node.num_visits ≠ 0)
    (hch : ∀ q ∈ node.children, q.2.num_visits ≠ 0)
    (hnd : (node.children.map Prod.fst).Nodup)
    (hex : ∃ q ∈ node.children, XR.blt (XR.fin (-1)) (ucb (XR.fin 0) bonus q.2) = true) :
    ∃ r, best_child (XR.fin 0) bonus node parent = .ok r ∧
      ∀ q ∈ node.children, dlookup r.table q.1
        = some (q.2.num_wins.divNat q.2.num_visits) := by
  obtain ⟨bv2, best2, hscan⟩ := bcScan_table bonus node.children (.fin (-1)) none [] hch
  obtain ⟨hall, -⟩ := bcScan_not_lt (XR.fin 0) bonus node.children (.fin (-1)) none [] _ hscan
  obtain ⟨q0, hq0, hq0lt⟩ := hex
  have hbne : bv2 ≠ XR.fin (-1) := by
    intro he
    have h2 := hall q0 hq0
    rw [he] at h2
    rw [h2] at hq0lt
    cases hq0lt
  refine ⟨⟨node, parent, best2,
    node.children.map (fun q => (q.1, ucb (XR.fin 0) bonus q.2))⟩, ?_, ?_⟩
  · simp only [List.nil_append] at hscan
    simp [best_child, hv, hscan, hbne]
  · intro q hq
    have hl := dlookup_map_of_nodup (fun q => ucb (XR.fin 0) bonus q.2) node.children hnd q hq
    simpa [ucb_zero] using hl

/-- C7 witness: a root with two visited children and win rates `1` and `0`;
both actions appear in the diagnostics table with their win rates. -/
theorem C7_witness :
    (∃ q ∈ (Node.mk Player.black 0 (XR.fin 0) 3
        [(1, Node.mk Player.white 0 (XR.fin 1) 1 [] [] false false none),
         (2, Node.mk Player.white 1 (XR.fin 0) 2 [] [] false false none)]
        [] false false none).children,
      XR.blt (XR.fin (-1)) (ucb (XR.fin 0) (fun _ => XR.fin 7) q.2) = true)
  ∧ ∃ r, best_child (XR.fin 0) (fun _ => XR.fin 7)
        (Node.mk Player.black 0 (XR.fin 0) 3
          [(1, Node.mk Player.white 0 (XR.fin 1) 1 [] [] false false none),
           (2, Node.mk Player.white 1 (XR.fin 0) 2 [] [] false false none)]
          [] false false none) none = .ok r ∧
      ∀ q ∈ (Node.mk Player.black 0 (XR.fin 0) 3
          [(1, Node.mk Player.white 0 (XR.fin 1) 1 [] [] false false none),
           (2, Node.mk Player.white 1 (XR.fin 0) 2 [] [] false false none)]
          [] false false none).children,
        dlookup r.table q.1 = some (q.2.num_wins.divNat q.2.num_visits) :=
  ⟨⟨(1, Node.mk Player.white 0 (XR.fin 1) 1 [] [] false false none),
    by
      refine ⟨by simp [Node.children], ?_⟩
      simp [ucb, Node.num_wins, Node.num_visits, XR.divNat, XR.mul, XR.add, XR.blt]⟩,
   C7_diagnostics (fun _ => XR.fin 7) _ none (by decide) (by decide)
     (by simp [Node.children])
     ⟨(1, Node.mk Player.white 0 (XR.fin 1) 1 [] [] false false none),
      by simp [Node.children],
      by simp [ucb, Node.num_wins, Node.num_visits, XR.divNat, XR.mul, XR.add, XR.blt]⟩⟩

/-- C8: a root with zero children after the budget is reported as an error:
the final `best_child(root, 0)` call either fails at `log(0)` (a budget of 0
leaves the root unvisited) or reaches the closure path and fails indexing
`children[0]`; either way `mcts_search` propagates an error instead of
silently returning an undefined move. -/
theorem C8_no_children_error (bonus : Node → XR) (node : Node)
    (hc : node.children = []) :
    ∃ e, mcts_return bonus node = .error e := by
  by_cases hv : node.num_visits = 0
  · exact ⟨"ValueError: math domain error",
      by simp [mcts_return, best_child, hv, Except.map]⟩
  · exact ⟨"IndexError: list index out of range",
      by simp [mcts_return, best_child, hv, hc, bcScan, Except.map]⟩

/-- C8 witness: a fresh root with no children (budget 0: zero visits). -/
theorem C8_witness :
    (Node.mk Player.black 0 (XR.fin 0) 0 [] [1, 2] false false none).children = []
  ∧ ∃ e, mcts_return (fun _ => XR.fin 0)
      (Node.mk Player.black 0 (XR.fin 0) 0 [] [1, 2] false false none) = .error e :=
  ⟨rfl, C8_no_children_error (fun _ => XR.fin 0) _ rfl⟩

end Gomoku
